import Mathlib

/-!
Verification of the nullzero.js temporal record-replay engine.

This file gives a shallow embedding of the record-replay data structure of
`src/replay/record.js` (the `Record` object) and `src/replay/walk.js` (the
`Walk` object), of the `ButtonSnapshot` object of `src/input/button.js`, and
of the hand-specialized `InputRecord.record` of `src/input/record.js`, and
proves or refutes the specification claims about them.

Modelling conventions:
- Timestamps are JavaScript numbers; they are modelled by an arbitrary
  linearly ordered type `T` with a subtraction (the only operations the
  source applies to times), so every general theorem covers the reals and
  the rationals alike.  Closed evaluations instantiate `T` with the
  integers, on which the kernel computes.
- The opaque state and change objects are type parameters `S` and `D`; a
  changelist is a `List D`.
- Mutation of `this` is modelled by state passing: a method that mutates the
  record takes and returns a `Record T S D` value.  A method that throws
  returns `Except.error`; a JavaScript throw that happens before any field
  assignment is modelled by returning the error before constructing a new
  value.
- `pack`/`unpack` exchange the entry list itself; the `JSON.stringify` /
  `JSON.parse` round trip is not modelled (no claim concerns the textual
  encoding).
-/

variable {T S D : Type}

deriving instance DecidableEq for Except

/-- One element of `this._record` in src/replay/record.js: an object
`{ time: <Number>, diff: <Change list> }`. -/
structure Entry (T D : Type) where
  time : T
  diff : List D
  deriving DecidableEq

/-- The strategy triple passed to the `Record` constructor in
src/replay/record.js: `diff(state, state) -> changelist`,
`apply(state, changelist) -> state`, and the `walk(state)` pre-step hook.
The hook's in-place modification of the state object is represented by the
value it leaves the state with. -/
structure Strategy (S D : Type) where
  diff : S → S → List D
  apply : S → List D → S
  walk : S → S

/-- The `Record` object of src/replay/record.js.  `entries` is `this._record`,
`base` is `this._base`, `basetime` is `this._basetime`, `current` is
`this._current`, `curtime` is `this._curtime`, `lastpack` is
`this._lastpack`. -/
structure Record (T S D : Type) where
  strat : Strategy S D
  window : T
  entries : List (Entry T D)
  base : S
  basetime : T
  current : S
  curtime : T
  lastpack : T

/-- The `Record(diff, apply, walk, window, base)` constructor: empty record
list, `_basetime = 0.0`, `_current = _base`, `_curtime = 0.0`,
`_lastpack = 0.0`. -/
def mkRecord [Zero T] (strat : Strategy S D) (window : T) (base : S) :
    Record T S D :=
  { strat := strat, window := window, entries := [], base := base,
    basetime := 0, current := base, curtime := 0, lastpack := 0 }

/-- The descending scan of `Record.prototype._insertEntry` (the loop
`for (var i = this._record.length - 1; i >= 0; --i)`), which splices the
entry immediately before the rightmost existing entry whose time is strictly
greater than the new entry's time.  `none` means the loop fell through
without inserting. -/
def insertScan [LinearOrder T] (e : Entry T D) :
    List (Entry T D) → Option (List (Entry T D))
  | [] => none
  | x :: rest =>
    match insertScan e rest with
    | some rest' => some (x :: rest')
    | none => if e.time < x.time then some (e :: x :: rest) else none

/-- The whole of `Record.prototype._insertEntry`: push when the list is empty
or the last entry's time is strictly below the new time, otherwise run the
descending scan; when the scan finds no entry with strictly greater time the
function returns without inserting and the entry is dropped. -/
def insertEntry [LinearOrder T] (r : List (Entry T D)) (e : Entry T D) :
    List (Entry T D) :=
  match r.getLast? with
  | none => r ++ [e]
  | some last =>
    if last.time < e.time then r ++ [e]
    else
      match insertScan e r with
      | some r' => r'
      | none => r

/-- The while loop of `Record.prototype._advanceBaseTo`: while the record is
non-empty and its first entry's time is below the target, fold that entry's
changelist into the base and remove it. -/
def pruneLoop [LinearOrder T] (ap : S → List D → S) (target : T) :
    S → List (Entry T D) → S × List (Entry T D)
  | base, [] => (base, [])
  | base, e :: rest =>
    if e.time < target then pruneLoop ap target (ap base e.diff) rest
    else (base, e :: rest)

/-- The whole of `Record.prototype._advanceBaseTo(time)`: a no-op on an empty
record; otherwise it first sets `_basetime` to the current first entry's time
and then runs the prune loop.  Note the source sets `_basetime` before the
loop, whether or not any entry is actually folded into `_base`. -/
def Record.advanceBaseTo [LinearOrder T] (r : Record T S D) (target : T) :
    Record T S D :=
  match r.entries with
  | [] => r
  | e :: rest =>
    let p := pruneLoop r.strat.apply target r.base (e :: rest)
    { r with basetime := e.time, base := p.1, entries := p.2 }

/-- The method `Record.prototype.record(state, time)` with an explicit time
argument: diff against `_current`; when the changelist is non-empty, set
`_curtime` and `_current`, advance the base to `time - window`, and insert
the new entry. -/
def Record.record [LinearOrder T] [Sub T] (r : Record T S D) (state : S)
    (time : T) : Record T S D :=
  let changes := r.strat.diff r.current state
  if changes.length > 0 then
    let r1 : Record T S D :=
      { r with curtime := time, current := r.strat.apply r.current changes }
    let r2 := r1.advanceBaseTo (time - r.window)
    { r2 with entries := insertEntry r2.entries { time := time, diff := changes } }
  else r

/-- The payload assembled by `Record.prototype.pack(since)`: every stored
entry whose time is at or after `since`, in stored order.  The side effect on
`_lastpack` is bookkeeping for the default argument and is not needed by any
claim. -/
def Record.packPayload [LinearOrder T] (r : Record T S D) (since : T) :
    List (Entry T D) :=
  r.entries.filter (fun e => since ≤ e.time)

/-- The method `Record.prototype.unpack(changes)`: insert each delivered
entry, in payload order, through `_insertEntry`. -/
def Record.unpack [LinearOrder T] (r : Record T S D)
    (payload : List (Entry T D)) : Record T S D :=
  { r with entries := payload.foldl insertEntry r.entries }

/-- The `Walk` object of src/replay/walk.js: the materialized `state` and the
current `time`.  The source object also stores a reference to the spawning
record; here the record is passed to `advanceTo` explicitly. -/
structure Walk (T S : Type) where
  state : S
  time : T
  deriving DecidableEq

/-- The entry loop of `Walk.prototype.advanceTo(time)`: scan the record's
entries in stored order, stop at the first entry with time strictly greater
than the target, and apply every scanned entry whose time is strictly
greater than the walk's time at the start of the call (`this.time` is not
reassigned until after the loop). -/
def advanceLoop [LinearOrder T] (ap : S → List D → S) (wtime t : T) :
    S → List (Entry T D) → S
  | s, [] => s
  | s, e :: rest =>
    if t < e.time then s
    else if wtime < e.time then advanceLoop ap wtime t (ap s e.diff) rest
    else advanceLoop ap wtime t s rest

/-- The method `Walk.prototype.advanceTo(time)`: throw when the target is
before the walk's current time; otherwise run the strategy's walk hook on
the materialized state, fold the qualifying entries, and set the walk's time
to the target. -/
def Walk.advanceTo [LinearOrder T] (rec : Record T S D) (w : Walk T S)
    (t : T) : Except String (Walk T S) :=
  if t < w.time then Except.error "You cannot rewind a Walk"
  else
    Except.ok
      { state := advanceLoop rec.strat.apply w.time t (rec.strat.walk w.state) rec.entries,
        time := t }

/-- The method `Record.prototype.beginWalk(start)` together with the `Walk`
constructor: the new walk starts from `_base` at `_basetime` and is
immediately advanced to `start`. -/
def Record.beginWalk [LinearOrder T] (rec : Record T S D) (start : T) :
    Except String (Walk T S) :=
  Walk.advanceTo rec { state := rec.base, time := rec.basetime } start

/-- A concrete strategy used for closed evaluations: integer states, a delta
is the numeric difference, applying adds the deltas, and the walk hook is the
identity.  It satisfies the documented round-trip law of src/replay/record.js:
`apply(s1, diff(s1, s2)) = s2` and `diff(s, s) = []`. -/
def intStrategy : Strategy ℤ ℤ :=
  { diff := fun a b => if a = b then [] else [b - a],
    apply := fun s l => s + l.sum,
    walk := fun s => s }

/-- Round-trip law for `intStrategy`, as documented in src/replay/record.js. -/
theorem intStrategy_roundTrip :
    (∀ a b : ℤ, intStrategy.apply a (intStrategy.diff a b) = b) ∧
    (∀ a : ℤ, intStrategy.diff a a = []) := by
  constructor
  · intro a b
    by_cases h : a = b
    · simp [intStrategy, h]
    · simp [intStrategy, h]
  · intro a
    simp [intStrategy]

/-- Claim C2 (confirmed): for every cursor and every target time strictly
less than the cursor's current time, `advanceTo` fails with the rewind error
before executing anything else, so neither the materialized state nor the
time of the cursor is changed. -/
theorem c2_advanceTo_rewind_fails [LinearOrder T] (rec : Record T S D)
    (w : Walk T S) (t : T) (h : t < w.time) :
    Walk.advanceTo rec w t = Except.error "You cannot rewind a Walk" := by
  unfold Walk.advanceTo
  rw [if_pos h]

/-- Witness for claim C2 at a concrete cursor and target. -/
theorem c2_advanceTo_rewind_fails_witness :
    (0 : ℤ) < 1 ∧
      Walk.advanceTo (mkRecord intStrategy 100 (0 : ℤ))
        { state := 0, time := (1 : ℤ) } 0 =
        Except.error "You cannot rewind a Walk" :=
  ⟨by decide,
   c2_advanceTo_rewind_fails (mkRecord intStrategy 100 (0 : ℤ))
     { state := 0, time := (1 : ℤ) } 0 (by decide)⟩

/-- A log of the `intStrategy` kind, window `100`, base state `0`, fed the
states `S0 = 1` at time `t0 = 1` and `S1 = 2` at time `t1 = 2` through
`record` — the replay-fidelity scenario at `n = 1`. -/
def fidelityLog : Record ℤ ℤ ℤ :=
  ((mkRecord intStrategy 100 0).record 1 1).record 2 2

/-- Claim C1 (code bug): replay fidelity fails on the code.  With the
round-trip-satisfying `intStrategy` (identity walk hook) and states `1` at
time `1` and `2` at time `2` recorded in order, a cursor obtained from
`beginWalk` at `t0 = 1` materializes state `0` at time `1` and state `1` at
time `2`, instead of the recorded states `1` and `2`.  The cause is
`_advanceBaseTo` setting `_basetime` to the first entry's time without
folding that entry into `_base`, so every walk skips the first entry's
changelist. -/
theorem c1_replay_fidelity_failing_input :
    fidelityLog.beginWalk 1 = Except.ok { state := 0, time := 1 } ∧
    Walk.advanceTo fidelityLog { state := 0, time := 1 } 2 =
      Except.ok { state := 1, time := 2 } ∧
    (0 : ℤ) ≠ 1 ∧ (1 : ℤ) ≠ 2 := by
  refine ⟨by decide, by decide, by decide, by decide⟩

/-- Claim C4 (code bug): `beginWalk(start)` with `start` before `_basetime`
is documented in src/replay/record.js as best-effort (the oldest available
history is used) but actually throws: the `Walk` constructor starts the
cursor at `_basetime` and immediately calls `advanceTo(start)`, which raises
the rewind error.  Concretely, `fidelityLog` has `_basetime = 1` and
`beginWalk 0` fails instead of returning a cursor positioned at the base
time. -/
theorem c4_beginWalk_clamp_failing_input :
    fidelityLog.basetime = 1 ∧ (0 : ℤ) < 1 ∧
    fidelityLog.beginWalk 0 = Except.error "You cannot rewind a Walk" := by
  refine ⟨by decide, by decide, by decide⟩

/-- A log fed states `1, 2, 3, 4` at times `1, 5, 7, 3` (the last one out of
order) through `record` only, with a window of `100` so that nothing is
pruned. -/
def outOfOrderLog : Record ℤ ℤ ℤ :=
  ((((mkRecord intStrategy 100 0).record 1 1).record 2 5).record 3 7).record 4 3

/-- Claim C3 (code bug): the sorted-order invariant fails.  Feeding states at
times `1, 5, 7, 3` through `record` leaves the entry sequence at times
`[1, 5, 3, 7]`, which is not sorted by non-decreasing time: the descending
scan of `_insertEntry` splices the late entry immediately before the
rightmost later entry instead of before the leftmost one, contradicting the
function's own comment that entries are kept in order of increasing time. -/
theorem c3_sorted_invariant_failing_input :
    outOfOrderLog.entries.map (fun e => e.time) = [1, 5, 3, 7] ∧
    ¬ List.Sorted (fun a b : ℤ => a ≤ b)
        (outOfOrderLog.entries.map (fun e => e.time)) := by
  refine ⟨by decide, ?_⟩
  intro hs
  rw [show outOfOrderLog.entries.map (fun e => e.time) = [1, 5, 3, 7] from by decide] at hs
  have h2 := (List.sorted_cons.mp ((List.sorted_cons.mp hs).2)).1 3 (by simp)
  norm_num at h2

/-- The payload produced by `pack(0)` on a log holding entries at times `1`
and `2`: both entries, in order. -/
def overlapPayload : List (Entry ℤ ℤ) :=
  fidelityLog.packPayload 0

/-- A fresh target log after the same packed payload has been delivered to
`unpack` twice — the overlapping-delivery scenario of claim C5. -/
def doubleUnpackLog : Record ℤ ℤ ℤ :=
  ((mkRecord intStrategy 100 0).unpack overlapPayload).unpack overlapPayload

/-- Claim C5 (code bug): overlapping delivery does lose entries.  The payload
holds entries at times `[1, 2]`; after feeding it to `unpack` twice on the
same fresh target, the target's entry sequence is at times `[1, 1, 2]`: the
second copy of the time-`1` entry was inserted as a duplicate, but the second
copy of the time-`2` entry — whose timestamp ties the largest time already
stored — was silently dropped by the fall-through of `_insertEntry`,
contradicting the claim that no delivered entry is dropped (and the stated
purpose of `_insertEntry`/`unpack` of storing every entry). -/
theorem c5_unpack_no_drop_failing_input :
    overlapPayload.map (fun e => e.time) = [1, 2] ∧
    doubleUnpackLog.entries.map (fun e => e.time) = [1, 1, 2] ∧
    (doubleUnpackLog.entries.filter (fun e => e.time = 2)).length = 1 := by
  refine ⟨by decide, by decide, by decide⟩

/-- A log with window `4` fed states `1, 2, 3, 4, 5` at times
`1, 5, 7, 3, 8` through `record` only. -/
def windowLog : Record ℤ ℤ ℤ :=
  (((((mkRecord intStrategy 4 0).record 1 1).record 2 5).record 3 7).record 4 3).record 5 8

/-- Claim C6 (code bug): the window bound fails.  After the `record` calls of
`windowLog` the log's current time is `8` and its window is `4`, yet an
entry at time `3 < 8 - 4` is still in the entry sequence: the out-of-order
insertion left the sequence unsorted (`[5, 3, 7, 8]`), and the prune loop of
`_advanceBaseTo` stops at the first entry at or after the target, never
reaching the stale entry behind it — contradicting `record`'s own comment
that history older than `time - window` is deleted. -/
theorem c6_window_bound_failing_input :
    windowLog.entries.map (fun e => e.time) = [5, 3, 7, 8] ∧
    windowLog.curtime = 8 ∧ windowLog.window = 4 ∧
    (3 : ℤ) < windowLog.curtime - windowLog.window ∧
    ∃ e ∈ windowLog.entries, e.time = 3 := by
  refine ⟨by decide, by decide, by decide, by decide, ?_⟩
  refine ⟨{ time := 3, diff := [1] }, by decide, rfl⟩

/-- Helper for claim C8: when the walk's time already equals the target, the
entry loop applies nothing, because an entry would have to satisfy both
`entry.time <= target` and `entry.time > this.time` with the two bounds
equal. -/
theorem advanceLoop_self [LinearOrder T] (ap : S → List D → S) (t : T)
    (s : S) (l : List (Entry T D)) : advanceLoop ap t t s l = s := by
  induction l with
  | nil => rfl
  | cons e rest ih =>
    by_cases h : t < e.time
    · simp [advanceLoop, h]
    · simp [advanceLoop, h, ih]

/-- Claim C8 (corrected, amended form): a repeated `advanceTo` with the same
target leaves the cursor's time unchanged and consumes no entries, but it
does run the strategy's pre-step walk hook once more, replacing the
materialized state by `walk(state)`; only when the hook leaves that state
unchanged is the repeated call a full no-op. -/
theorem c8_repeat_advance_amended [LinearOrder T] (rec : Record T S D)
    (w : Walk T S) (t : T) (h : w.time = t) :
    Walk.advanceTo rec w t =
      Except.ok { state := rec.strat.walk w.state, time := t } ∧
    (rec.strat.walk w.state = w.state →
      Walk.advanceTo rec w t = Except.ok { state := w.state, time := t }) := by
  subst h
  have hfst : Walk.advanceTo rec w w.time =
      Except.ok { state := rec.strat.walk w.state, time := w.time } := by
    unfold Walk.advanceTo
    rw [if_neg (lt_irrefl w.time), advanceLoop_self]
  exact ⟨hfst, fun hw => by rw [hfst, hw]⟩

/-- Witness for the amended claim C8 at a concrete cursor: on `fidelityLog`
(identity walk hook) a second `advanceTo` to the cursor's own time returns
the cursor unchanged. -/
theorem c8_repeat_advance_amended_witness :
    (Walk.mk (2 : ℤ) (5 : ℤ)).time = 5 ∧
    (Walk.advanceTo fidelityLog (Walk.mk 2 5) 5 =
        Except.ok { state := fidelityLog.strat.walk 2, time := 5 } ∧
      (fidelityLog.strat.walk 2 = 2 →
        Walk.advanceTo fidelityLog (Walk.mk 2 5) 5 =
          Except.ok { state := 2, time := 5 })) :=
  ⟨rfl, c8_repeat_advance_amended fidelityLog (Walk.mk 2 5) 5 rfl⟩

/-- A strategy whose walk hook rewrites the state to `0`, standing for the
input strategy's pre-step hook that clears one-shot edge flags.  Its diff
and apply satisfy the documented round-trip law, which constrains only the
diff/apply pair; the hook is unconstrained by the source's contract. -/
def constZeroStrategy : Strategy ℤ ℤ :=
  { diff := fun a b => if a = b then [] else [b],
    apply := fun s l =>
      match l with
      | [] => s
      | x :: _ => x,
    walk := fun _ => 0 }

/-- Round-trip law for `constZeroStrategy`. -/
theorem constZeroStrategy_roundTrip :
    (∀ a b : ℤ, constZeroStrategy.apply a (constZeroStrategy.diff a b) = b) ∧
    (∀ a : ℤ, constZeroStrategy.diff a a = []) := by
  constructor
  · intro a b
    by_cases h : a = b
    · simp [constZeroStrategy, h]
    · simp [constZeroStrategy, h]
  · intro a
    simp [constZeroStrategy]

/-- A log of the `constZeroStrategy` kind, window `100`, base state `5`,
fed state `7` at time `1`. -/
def hookLog : Record ℤ ℤ ℤ :=
  (mkRecord constZeroStrategy 100 5).record 7 1

/-- Claim C8 (counterexample): repeated `advanceTo` with the same target is
not a no-op on the materialized state.  On `hookLog`, a cursor obtained from
`beginWalk 0` and advanced to time `1` materializes state `7`; calling
`advanceTo 1` again succeeds but re-runs the pre-step walk hook and leaves
the state at `0`, not `7`. -/
theorem c8_repeat_advance_not_noop :
    hookLog.beginWalk 0 = Except.ok { state := 0, time := 0 } ∧
    Walk.advanceTo hookLog { state := 0, time := 0 } 1 =
      Except.ok { state := 7, time := 1 } ∧
    Walk.advanceTo hookLog { state := 7, time := 1 } 1 =
      Except.ok { state := 0, time := 1 } ∧
    (0 : ℤ) ≠ 7 := by
  refine ⟨by decide, by decide, by decide, by decide⟩

/-- Heap-level view of the fields of the `Record` object that a `Walk`
touches, for the frame analysis of claim C7.  State objects live in a heap
modelled as a list of `S` values addressed by position; `baseRef` is the
reference held in `this._base`.  The strategy's `walk` hook has signature
`function(state) -> void` in src/replay/record.js and modifies the state
object in place, which the heap model renders as overwriting the referenced
cell; `apply` returns a fresh state object (its documented contract), which
the heap model renders as allocating a new cell. -/
structure RecordH (T S D : Type) where
  strat : Strategy S D
  entries : List (Entry T D)
  baseRef : Nat
  basetime : T

/-- The cursor of src/replay/walk.js in the heap model: `stateRef` is the
reference held in `this.state`.  The `Walk` constructor initializes it with
`this.state = this._record._base`, i.e. the very reference the record holds,
not a copy. -/
structure WalkH (T : Type) where
  stateRef : Nat
  time : T
  deriving DecidableEq

/-- The entry loop of `advanceTo` in the heap model: each consumed entry
allocates the fresh state returned by `apply` at the end of the heap and
repoints the cursor's state reference at it. -/
def advanceLoopH [Inhabited S] [LinearOrder T] (ap : S → List D → S)
    (wtime t : T) : List S → Nat → List (Entry T D) → List S × Nat
  | h, r, [] => (h, r)
  | h, r, e :: rest =>
    if t < e.time then (h, r)
    else if wtime < e.time then
      advanceLoopH ap wtime t (h ++ [ap (h.getD r default) e.diff]) h.length rest
    else advanceLoopH ap wtime t h r rest

/-- The method `Walk.prototype.advanceTo(time)` in the heap model: after the
rewind check, `this._record.walk(this.state)` updates the referenced state
cell in place, then the entry loop folds the qualifying entries. -/
def WalkH.advanceToH [Inhabited S] [LinearOrder T] (rec : RecordH T S D)
    (h : List S) (w : WalkH T) (t : T) :
    Except String (List S × WalkH T) :=
  if t < w.time then Except.error "You cannot rewind a Walk"
  else
    let h1 := h.set w.stateRef (rec.strat.walk (h.getD w.stateRef default))
    let p := advanceLoopH rec.strat.apply w.time t h1 w.stateRef rec.entries
    Except.ok (p.1, { stateRef := p.2, time := t })

/-- The method `Record.prototype.beginWalk(start)` in the heap model: the new
cursor aliases the record's base state reference and is immediately advanced
to `start`. -/
def RecordH.beginWalkH [Inhabited S] [LinearOrder T] (rec : RecordH T S D)
    (h : List S) (start : T) : Except String (List S × WalkH T) :=
  WalkH.advanceToH rec h { stateRef := rec.baseRef, time := rec.basetime } start

/-- Helper for claim C7: the entry loop only appends freshly allocated cells
to the heap, so the resulting heap extends the input heap. -/
theorem advanceLoopH_extends [Inhabited S] [LinearOrder T]
    (ap : S → List D → S) (wtime t : T) (l : List (Entry T D)) :
    ∀ (h : List S) (r : Nat),
      ∃ tail, (advanceLoopH ap wtime t h r l).1 = h ++ tail := by
  induction l with
  | nil =>
    intro h r
    exact ⟨[], by simp [advanceLoopH]⟩
  | cons e rest ih =>
    intro h r
    by_cases h1 : t < e.time
    · exact ⟨[], by simp [advanceLoopH, h1]⟩
    · by_cases h2 : wtime < e.time
      · obtain ⟨tl, htl⟩ := ih (h ++ [ap (h.getD r default) e.diff]) h.length
        refine ⟨ap (h.getD r default) e.diff :: tl, ?_⟩
        simp only [advanceLoopH, if_neg h1, if_pos h2, htl, List.append_assoc,
          List.singleton_append]
      · obtain ⟨tl, htl⟩ := ih h r
        exact ⟨tl, by simp [advanceLoopH, h1, h2, htl]⟩

/-- A heap-model record over boolean states whose walk hook forces the state
to `false`, standing for the input strategy's pre-step hook that clears
one-shot edge flags in place; its base state lives in heap cell `0`. -/
def hookFalseRecordH : RecordH ℤ Bool Unit :=
  { strat := { diff := fun _ _ => [], apply := fun s _ => s, walk := fun _ => false },
    entries := [], baseRef := 0, basetime := 0 }

/-- A heap-model record over boolean states whose walk hook is the
identity. -/
def idHookRecordH : RecordH ℤ Bool Unit :=
  { strat := { diff := fun _ _ => [], apply := fun s _ => s, walk := fun s => s },
    entries := [], baseRef := 0, basetime := 0 }

/-- Claim C7 (counterexample): a cursor operation can mutate the History Log
it reads.  With a strategy whose walk hook modifies the state, `beginWalk`
alone rewrites the log's base state object: the heap cell `0` is the
record's `_base`, holds `true` before the call, and holds `false`
afterwards, because the cursor's materialized state is that very object and
not a private copy. -/
theorem c7_cursor_mutates_log_base :
    hookFalseRecordH.beginWalkH [true] 0 =
      Except.ok ([false], { stateRef := 0, time := 0 }) ∧
    [true].getD 0 default = true ∧ [false].getD 0 default = false := by
  refine ⟨by decide, by decide, by decide⟩

/-- Claim C7 (corrected, amended form): frame property of `advanceTo` in the
heap model.  A successful `advanceTo` leaves every pre-existing state cell
other than the one the cursor's state currently references unchanged (in
particular it never touches the record's entry sequence, which lives outside
the heap of state objects); and when the walk hook fixes the referenced
state — for example the identity hook — every pre-existing cell, the log's
base included, is unchanged, entry application only allocating fresh cells.
The uncorrected claim fails only through the cursor's initial aliasing of
the log's base object, exhibited above. -/
theorem c7_cursor_frame_amended [Inhabited S] [LinearOrder T]
    (rec : RecordH T S D) (h : List S) (w : WalkH T) (t : T)
    (h' : List S) (w' : WalkH T)
    (hok : WalkH.advanceToH rec h w t = Except.ok (h', w')) :
    (∀ i, i < h.length → i ≠ w.stateRef →
      h'.getD i default = h.getD i default) ∧
    (rec.strat.walk (h.getD w.stateRef default) = h.getD w.stateRef default →
      ∀ i, i < h.length → h'.getD i default = h.getD i default) := by
  unfold WalkH.advanceToH at hok
  by_cases hlt : t < w.time
  · rw [if_pos hlt] at hok
    exact absurd hok (by simp)
  · rw [if_neg hlt] at hok
    simp only [Except.ok.injEq, Prod.mk.injEq] at hok
    obtain ⟨tail, htail⟩ :=
      advanceLoopH_extends rec.strat.apply w.time t rec.entries
        (h.set w.stateRef (rec.strat.walk (h.getD w.stateRef default)))
        w.stateRef
    have hh' : h' =
        h.set w.stateRef (rec.strat.walk (h.getD w.stateRef default)) ++ tail := by
      rw [← hok.1, htail]
    constructor
    · intro i hi hne
      rw [hh', List.getD_append _ _ _ _ (by simpa using hi)]
      rw [List.getD_eq_getElem?_getD, List.getElem?_set_ne (Ne.symm hne),
        List.getD_eq_getElem?_getD]
    · intro hfix i hi
      rw [hh', List.getD_append _ _ _ _ (by simpa using hi)]
      by_cases hiw : i = w.stateRef
      · subst hiw
        rw [List.getD_eq_getElem?_getD, List.getElem?_set_self',
          List.getElem?_eq_getElem hi]
        simpa [List.getD_eq_getElem?_getD] using hfix
      · rw [List.getD_eq_getElem?_getD, List.getElem?_set_ne (Ne.symm hiw),
          List.getD_eq_getElem?_getD]

/-- Witness for the amended claim C7 at a concrete heap: an identity-hook
record over boolean states, a two-cell heap, and a cursor on cell `0`
advanced to its own time; the theorem yields that the untouched cell `1`
(and, the hook being the identity, cell `0` as well) is unchanged. -/
theorem c7_cursor_frame_amended_witness :
    WalkH.advanceToH idHookRecordH [true, false] { stateRef := 0, time := 0 } 0 =
      Except.ok ([true, false], { stateRef := 0, time := 0 }) ∧
    ((∀ i, i < [true, false].length → i ≠ (0 : Nat) →
        ([true, false] : List Bool).getD i default =
          ([true, false] : List Bool).getD i default) ∧
      (idHookRecordH.strat.walk (([true, false] : List Bool).getD 0 default) =
          ([true, false] : List Bool).getD 0 default →
        ∀ i, i < [true, false].length →
          ([true, false] : List Bool).getD i default =
            ([true, false] : List Bool).getD i default)) :=
  ⟨by decide,
   c7_cursor_frame_amended idHookRecordH [true, false]
     { stateRef := 0, time := 0 } 0 [true, false]
     { stateRef := 0, time := 0 } (by decide)⟩

/-- The `ButtonSnapshot` object of src/input/button.js: a button that just
returns a fixed state, constructed as
`ButtonSnapshot(wasDown, wasUp, wasPressed, wasReleased)`. -/
structure ButtonSnapshot where
  wasDown : Bool
  wasUp : Bool
  wasPressed : Bool
  wasReleased : Bool
  deriving DecidableEq

/-- The accessor `ButtonSnapshot.prototype.down`. -/
def ButtonSnapshot.down (b : ButtonSnapshot) : Bool := b.wasDown

/-- The accessor `ButtonSnapshot.prototype.up`. -/
def ButtonSnapshot.up (b : ButtonSnapshot) : Bool := b.wasUp

/-- The accessor `ButtonSnapshot.prototype.pressed`. -/
def ButtonSnapshot.pressed (b : ButtonSnapshot) : Bool := b.wasPressed

/-- The accessor `ButtonSnapshot.prototype.released`. -/
def ButtonSnapshot.released (b : ButtonSnapshot) : Bool := b.wasReleased

/-- Claim C9 (confirmed): a `ButtonSnapshot` stores its up-state
independently of its down-state — `down()` returns the stored `wasDown`
field and `up()` returns the stored `wasUp` field, so `up()` is not the
negation of `down()`: the snapshot constructed with all four flags `false`
answers `false` to both `down()` and `up()`, where a negation-based `up()`
would answer `true`. -/
theorem c9_buttonSnapshot_up_independent :
    (∀ b : ButtonSnapshot, b.down = b.wasDown) ∧
    (∀ b : ButtonSnapshot, b.up = b.wasUp) ∧
    (∃ b : ButtonSnapshot, b.down = false ∧ b.up = false) ∧
    (ButtonSnapshot.mk false false false false).up ≠
      !(ButtonSnapshot.mk false false false false).down :=
  ⟨fun _ => rfl, fun _ => rfl,
   ⟨ButtonSnapshot.mk false false false false, rfl, rfl⟩, by decide⟩

/-- The `InputState` object of src/input/state.js, as far as the claims need
it: named button snapshots and named numeric axis values (the live
button/axis objects a client-side state holds answer the same queries). -/
structure InputState where
  pollTime : ℤ
  buttons : List (String × ButtonSnapshot)
  axes : List (String × ℤ)
  deriving DecidableEq

/-- One keyframe of the hand-specialized input record of
src/input/record.js: `{ time, deltas: { button, axis } }`. -/
structure Keyframe where
  time : ℤ
  buttonDeltas : List (String × Bool)
  axisDeltas : List (String × ℤ)
  deriving DecidableEq

/-- The `InputRecord` object of src/input/record.js (the hand-specialized
variant whose `record` calls `this.stateAt`): `length` is the retention
length passed to the constructor, `epochState`/`epochTime` the oldest
retained state and its time, `diffTime` the time of the last `diff()` call,
`keyframes` the keyframe sequence. -/
structure InputRecord where
  length : ℤ
  epochState : InputState
  epochTime : ℤ
  diffTime : ℤ
  keyframes : List Keyframe
  deriving DecidableEq

/-- The complete set of methods that src/input/record.js installs on
`InputRecord.prototype`; the file defines no `stateAt` method (the replay
object of src/input/replay.js has one, the record does not), and nothing
else in the file adds properties to record instances beyond the constructor
fields. -/
def inputRecordProtoMethods : List String :=
  ["record", "diff", "apply", "beginReplay", "forgetAllBefore", "_insertKeyframe"]

/-- The method `InputRecord.prototype.record(state, time)` of
src/input/record.js.  Its first statement after defaulting `time` is
`var baseline = this.stateAt(time)`; `stateAt` is not among
`inputRecordProtoMethods`, so the call throws a `TypeError` before the
keyframe is built, before the insertion guard runs, and before
`forgetAllBefore` prunes — leaving `keyframes`, `epochState` and `epochTime`
untouched.  Were a `stateAt` ever present, the insertion guard
`Object.keys(this.keyframe.deltas.button)` reads the never-assigned property
`this.keyframe` (not the local `keyframe`) and would throw its own
`TypeError`, still before `_insertKeyframe` or `forgetAllBefore` run; the
insertion and pruning statements are unreachable either way, which is what
the first branch records. -/
def InputRecord.record (r : InputRecord) (state : InputState) (time : ℤ) :
    Except String InputRecord :=
  if "stateAt" ∈ inputRecordProtoMethods then
    Except.error "TypeError: cannot read property of undefined (reading deltas)"
  else
    Except.error "TypeError: this.stateAt is not a function"

/-- Claim C10 (confirmed): the hand-specialized input variant's
`InputRecord.record` raises a `TypeError` on every call — the prototype
defines no `stateAt` — and returns before any keyframe insertion or pruning,
so the record's `keyframes`, `epochState` and `epochTime` are left
unchanged (the error is raised before any assignment to the object). -/
theorem c10_inputRecord_record_always_errors :
    ¬ ("stateAt" ∈ inputRecordProtoMethods) ∧
    ∀ (r : InputRecord) (s : InputState) (t : ℤ),
      InputRecord.record r s t =
        Except.error "TypeError: this.stateAt is not a function" := by
  refine ⟨by decide, ?_⟩
  intro r s t
  unfold InputRecord.record
  rw [if_neg (by decide)]
